import Mathlib

/-!
Verification of the Teaclave management-service task lifecycle and
access-control core against its natural-language specification.

The embedding translates `services/management/enclave/src/service.rs`
(the endpoint handlers) and `services/proto/src/teaclave_common.rs`
(the TaskStatus wire codec).  The entity types and the Task state
machine live in the `teaclave_types` crate, which is not part of the
sources at hand; those definitions are modelled from the specification
(marked `Modelled from the spec:` in their doc comments).

Storage is modelled as an in-memory database: one association list per
entity kind (the real storage keys each record by a kind `prefix` plus
a uuid, so kinds never collide) plus the staged-task FIFO queue.  Rust
`Uuid` values are modelled as `Nat`; freshly generated uuids appear as
explicit oracle parameters of the handlers.  Each handler returns the
database together with `Except ServiceError response`; errors produced
before the first storage mutation of a handler leave the database
untouched, exactly as in the source, where reads do not mutate and all
writes come last.  For `invoke_task`, which issues two mutating storage
calls (an enqueue and then a put), the success of each storage RPC is
modelled by an explicit oracle `storageOk : Nat → Bool` (the real RPC
can fail; the source maps its failure to `StorageError`).
-/

namespace Teaclave

/-- The `UserID` from `teaclave_types`: a string identifier. -/
abbrev UserID := String

/-- The `ServiceError` enum of `service.rs`. -/
inductive ServiceError where
  | InvalidRequest
  | DataError
  | StorageError
  | PermissionDenied
  | BadTask
deriving DecidableEq, Repr

/-- The `TaskStatus` from `teaclave_types`, states listed in spec §4.3. -/
inductive TaskStatus where
  | Created
  | DataAssigned
  | Approved
  | Staged
  | Running
  | Finished
deriving DecidableEq, Repr

/-- The `FileCrypto` {schema, key, iv} (spec §3); key and iv as byte lists. -/
structure FileCrypto where
  schema : String
  key : List Nat
  iv : List Nat
deriving DecidableEq, Repr

/-- The `FileCrypto::default()`. -/
def FileCrypto.default : FileCrypto := { schema := "teaclave_file_128", key := [], iv := [] }

/-- The `ExternalID` (spec §3): a kind tag plus a uuid.  The Rust field is
named `prefix`; that is a keyword here, so the field is `pfx`. -/
structure ExternalID where
  pfx : String
  uuid : Nat
deriving DecidableEq, Repr

/-- The `TeaclaveInputFile` (spec §3 InputFile): url, mandatory cmac,
crypto info and a non-empty owner list. -/
structure TeaclaveInputFile where
  uuid : Nat
  url : String
  cmac : String
  crypto_info : FileCrypto
  owner : List UserID
deriving DecidableEq, Repr

/-- The `TeaclaveOutputFile` (spec §3 OutputFile): like InputFile but the
cmac is optional (`none` until the executor finalizes the file). -/
structure TeaclaveOutputFile where
  uuid : Nat
  url : String
  cmac : Option String
  crypto_info : FileCrypto
  owner : List UserID
deriving DecidableEq, Repr

/-- A declared function input or output slot (`FunctionInput` /
`FunctionOutput`): name and description. -/
structure FunctionSlot where
  name : String
  description : String
deriving DecidableEq, Repr

/-- The `Function` (spec §3). -/
structure Function where
  uuid : Nat
  name : String
  description : String
  payload : String
  executor_type : String
  public : Bool
  owner : UserID
  arguments : List String
  inputs : List FunctionSlot
  outputs : List FunctionSlot
deriving DecidableEq, Repr

/-- The `TaskResult` (spec §3): not ready, or the executor outcome. -/
inductive TaskResult where
  | NotReady
  | Ok (return_value : String)
  | Err (reason : String)
deriving DecidableEq, Repr

/-- The `Task` (spec §3).  `assigned_inputs` / `assigned_outputs` store the
assigned file records keyed by slot name, as the source Task does. -/
structure Task where
  uuid : Nat
  creator : UserID
  function_id : ExternalID
  function_owner : UserID
  executor : String
  function_arguments : List (String × String)
  inputs_ownership : List (String × List UserID)
  outputs_ownership : List (String × List UserID)
  participants : List UserID
  approved_users : List UserID
  assigned_inputs : List (String × TeaclaveInputFile)
  assigned_outputs : List (String × TeaclaveOutputFile)
  status : TaskStatus
  result : TaskResult
deriving DecidableEq, Repr

/-- A `FileRef` inside a StagedTask (spec §3): url + crypto
(+ cmac when present). -/
structure FileRef where
  url : String
  cmac : Option String
  crypto_info : FileCrypto
deriving DecidableEq, Repr

/-- The `StagedTask` (spec §3): the executor-facing queue payload. -/
structure StagedTask where
  task_id : Nat
  executor : String
  function_payload : String
  function_arguments : List (String × String)
  input_data : List (String × FileRef)
  output_data : List (String × FileRef)
deriving DecidableEq, Repr

/-- The persistent state the management service sees: one table per
entity kind (kinds are disjoint in the real key space because every
key begins with the kind tag) plus the staged-task FIFO queue. -/
structure Db where
  inputFiles : List TeaclaveInputFile
  outputFiles : List TeaclaveOutputFile
  functions : List Function
  tasks : List Task
  stagedQueue : List StagedTask
deriving DecidableEq, Repr

/-! ### Storage helpers (`read_from_db`, `write_to_db`, `enqueue_to_db`) -/

/-- The `read_from_db::<TeaclaveInputFile>`: the kind tag of the requested
`ExternalID` must be the input-file tag, then the record is looked up;
both failure modes are indistinguishable to the handler. -/
def readInputFile (db : Db) (id : ExternalID) : Except Unit TeaclaveInputFile :=
  if id.pfx = "input-file" then
    match db.inputFiles.find? (fun f => f.uuid = id.uuid) with
    | some f => .ok f
    | none => .error ()
  else .error ()

/-- The `read_from_db::<TeaclaveOutputFile>`. -/
def readOutputFile (db : Db) (id : ExternalID) : Except Unit TeaclaveOutputFile :=
  if id.pfx = "output-file" then
    match db.outputFiles.find? (fun f => f.uuid = id.uuid) with
    | some f => .ok f
    | none => .error ()
  else .error ()

/-- The `read_from_db::<Function>`. -/
def readFunction (db : Db) (id : ExternalID) : Except Unit Function :=
  if id.pfx = "function" then
    match db.functions.find? (fun f => f.uuid = id.uuid) with
    | some f => .ok f
    | none => .error ()
  else .error ()

/-- The `read_from_db::<Task>`. -/
def readTask (db : Db) (id : ExternalID) : Except Unit Task :=
  if id.pfx = "task" then
    match db.tasks.find? (fun t => t.uuid = id.uuid) with
    | some t => .ok t
    | none => .error ()
  else .error ()

/-- The `write_to_db` for an output file: `Put` is an idempotent overwrite
keyed by uuid. -/
def putOutputFile (db : Db) (f : TeaclaveOutputFile) : Db :=
  { db with outputFiles := f :: db.outputFiles.filter (fun g => g.uuid ≠ f.uuid) }

/-- The `write_to_db` for a task. -/
def putTask (db : Db) (t : Task) : Db :=
  { db with tasks := t :: db.tasks.filter (fun s => s.uuid ≠ t.uuid) }

/-- The `enqueue_to_db` on the staged-task queue: FIFO append. -/
def enqueueStaged (db : Db) (s : StagedTask) : Db :=
  { db with stagedQueue := db.stagedQueue ++ [s] }

/-- The `get_request_user_id`: the authenticated user is the metadata
entry under key `"id"`; missing metadata is `InvalidRequest`. -/
def get_request_user_id (meta : List (String × String)) : Except ServiceError UserID :=
  match meta.find? (fun p => p.1 = "id") with
  | some p => .ok p.2
  | none => .error .InvalidRequest

/-! ### Set-flavoured list helpers (spec §9: `OwnerList` equality is
set equality; `approved_users` and `participants` are sets) -/

/-- Insert with set semantics: a no-op when the element is present. -/
def addUser (l : List UserID) (u : UserID) : List UserID :=
  if l.contains u then l else l ++ [u]

/-- Union with set semantics on the accumulator. -/
def unionUsers (l : List UserID) (us : List UserID) : List UserID :=
  us.foldl addUser l

/-- Set equality of two lists, by mutual containment. -/
def sameSet (l₁ l₂ : List String) : Bool :=
  l₁.all (fun x => l₂.contains x) && l₂.all (fun x => l₁.contains x)

/-- Overwrite the entry of an association list at a key. -/
def upsert {α : Type} (l : List (String × α)) (k : String) (v : α) : List (String × α) :=
  (k, v) :: l.filter (fun p => p.1 ≠ k)

/-! ### The Task state machine (`teaclave_types`, modelled from the spec) -/

/-- Modelled from the spec (§4.3): `fully_assigned(t)` — the assigned
input and output slot-name sets equal the declared ownership key sets. -/
def Task.fullyAssigned (t : Task) : Bool :=
  sameSet (t.assigned_inputs.map Prod.fst) (t.inputs_ownership.map Prod.fst)
    && sameSet (t.assigned_outputs.map Prod.fst) (t.outputs_ownership.map Prod.fst)

/-- Modelled from the spec (§4.3): `fully_approved(t)` —
`approved_users ⊇ participants \ {creator}`. -/
def Task.fullyApproved (t : Task) : Bool :=
  t.participants.all (fun p => p == t.creator || t.approved_users.contains p)

/-- Modelled from the spec (§4.3): after every `AssignData` or
`ApproveTask` mutation the status is recomputed — `Created` advances to
`DataAssigned` once fully assigned (and straight on to `Approved` when
also fully approved, as in spec §8 scenario 2), `DataAssigned` advances
to `Approved` once fully approved; later states never change here. -/
def Task.updateStatus (t : Task) : Task :=
  match t.status with
  | .Created =>
      if t.fullyAssigned then
        if t.fullyApproved then { t with status := .Approved }
        else { t with status := .DataAssigned }
      else t
  | .DataAssigned =>
      if t.fullyApproved then { t with status := .Approved } else t
  | _ => t

/-- Modelled from the spec (§4.1 CreateTask row, §3 Task): `Task::new`
from `teaclave_types` validates the request against the function —
`function.public ∨ function.owner == creator`, argument-name set equals
`function.arguments`, `inputs_ownership` keys equal the declared input
slot names, `outputs_ownership` keys equal the declared output slot
names — and builds the task with status `Created`, empty assignments
and approvals, and `participants = {creator} ∪ ⋃ inputs_ownership ∪
⋃ outputs_ownership`.  (The executor-acceptance criterion of the spec
is not further specified and no claim depends on it.) -/
def Task.new (uuid : Nat) (creator : UserID) (executor : String)
    (function_arguments : List (String × String))
    (inputs_ownership : List (String × List UserID))
    (outputs_ownership : List (String × List UserID))
    (f : Function) : Except Unit Task :=
  if ¬(f.public || f.owner == creator) then .error ()
  else if ¬ sameSet (function_arguments.map Prod.fst) f.arguments then .error ()
  else if ¬ sameSet (inputs_ownership.map Prod.fst) (f.inputs.map FunctionSlot.name) then .error ()
  else if ¬ sameSet (outputs_ownership.map Prod.fst) (f.outputs.map FunctionSlot.name) then .error ()
  else .ok
    { uuid := uuid
      creator := creator
      function_id := ⟨"function", f.uuid⟩
      function_owner := f.owner
      executor := executor
      function_arguments := function_arguments
      inputs_ownership := inputs_ownership
      outputs_ownership := outputs_ownership
      participants :=
        (outputs_ownership.map Prod.snd).foldl unionUsers
          ((inputs_ownership.map Prod.snd).foldl unionUsers [creator])
      approved_users := []
      assigned_inputs := []
      assigned_outputs := []
      status := .Created
      result := .NotReady }

/-- Modelled from the spec (§4.2): `Task::assign_input` accepts the
entry `(name, file)` iff the task may still be assigned (status
`Created` or `DataAssigned`, §4.1), the slot exists, the owner set of
the file equals the declared `OwnerList` of the slot, and the caller is
one of the owners of the file; then it overwrites the slot and recomputes the
status. -/
def Task.assign_input (t : Task) (u : UserID) (name : String)
    (file : TeaclaveInputFile) : Except Unit Task :=
  if ¬(t.status == .Created || t.status == .DataAssigned) then .error ()
  else match t.inputs_ownership.lookup name with
    | none => .error ()
    | some owners =>
      if ¬ sameSet file.owner owners then .error ()
      else if ¬ file.owner.contains u then .error ()
      else .ok (Task.updateStatus
        { t with assigned_inputs := upsert t.assigned_inputs name file })

/-- Modelled from the spec (§4.2): `Task::assign_output` — as for
inputs, with the extra rule that the output must not be finalized
(`cmac.is_none()`). -/
def Task.assign_output (t : Task) (u : UserID) (name : String)
    (file : TeaclaveOutputFile) : Except Unit Task :=
  if ¬(t.status == .Created || t.status == .DataAssigned) then .error ()
  else match t.outputs_ownership.lookup name with
    | none => .error ()
    | some owners =>
      if ¬ sameSet file.owner owners then .error ()
      else if ¬ file.owner.contains u then .error ()
      else if ¬ file.cmac.isNone then .error ()
      else .ok (Task.updateStatus
        { t with assigned_outputs := upsert t.assigned_outputs name file })

/-- Modelled from the spec (§4.1 ApproveTask row): `Task::approve`
requires `caller ∈ participants \ {creator}` and status
`DataAssigned`; it adds the caller to `approved_users` (set semantics)
and recomputes the status. -/
def Task.approve (t : Task) (u : UserID) : Except Unit Task :=
  if ¬(t.status == .DataAssigned) then .error ()
  else if ¬(t.participants.contains u) then .error ()
  else if u == t.creator then .error ()
  else .ok (Task.updateStatus { t with approved_users := addUser t.approved_users u })

/-- The `FileRef` of an assigned input inside the StagedTask. -/
def inputFileRef (f : TeaclaveInputFile) : FileRef :=
  { url := f.url, cmac := some f.cmac, crypto_info := f.crypto_info }

/-- The `FileRef` of an assigned output inside the StagedTask. -/
def outputFileRef (f : TeaclaveOutputFile) : FileRef :=
  { url := f.url, cmac := f.cmac, crypto_info := f.crypto_info }

/-- The StagedTask materialized from a task and its function. -/
def mkStagedTask (t : Task) (f : Function) : StagedTask :=
  { task_id := t.uuid
    executor := t.executor
    function_payload := f.payload
    function_arguments := t.function_arguments
    input_data := t.assigned_inputs.map (fun p => (p.1, inputFileRef p.2))
    output_data := t.assigned_outputs.map (fun p => (p.1, outputFileRef p.2)) }

/-- Modelled from the spec (§4.1 InvokeTask row, §3 StagedTask):
`Task::stage_for_running` requires `caller == creator` and status
`Approved`; it materializes the executor-facing `StagedTask` carrying
the same `task_id` and transitions the task to `Staged`. -/
def Task.stage_for_running (t : Task) (u : UserID) (f : Function) :
    Except Unit (StagedTask × Task) :=
  if ¬(t.creator == u) then .error ()
  else if ¬(t.status == .Approved) then .error ()
  else .ok (mkStagedTask t f, { t with status := .Staged })

/-! ### Management-service endpoint handlers (`service.rs`) -/

/-- The `create_fusion_data`: a synthetic OutputFile at
`fusion:///TEACLAVE_FUSION_BASE/<uuid>.fusion` with default crypto and
`cmac = None`.  The fresh `Uuid::new_v4()` is the parameter `fresh`;
`Url::parse` cannot fail on this string, so the `DataError`
branch is unreachable and the result is total. -/
def create_fusion_data (fresh : Nat) (owners : List UserID) : TeaclaveOutputFile :=
  { uuid := fresh
    url := "fusion:///TEACLAVE_FUSION_BASE/" ++ toString fresh ++ ".fusion"
    cmac := none
    crypto_info := FileCrypto.default
    owner := owners }

/-- The `register_fusion_output`: requires `owner_list.len() > 1` and
`owner_list.contains(user_id)`, else `PermissionDenied`; then creates
and stores the fusion OutputFile and returns its external id. -/
def register_fusion_output (db : Db) (meta : List (String × String))
    (owner_list : List UserID) (fresh : Nat) :
    Db × Except ServiceError ExternalID :=
  match get_request_user_id meta with
  | .error e => (db, .error e)
  | .ok user_id =>
    if ¬(owner_list.length > 1 && owner_list.contains user_id) then
      (db, .error .PermissionDenied)
    else
      let output_file := create_fusion_data fresh owner_list
      (putOutputFile db output_file, .ok ⟨"output-file", output_file.uuid⟩)

/-- The `get_input_file`: read the InputFile (any read failure is
`PermissionDenied`), require `input_file.owner.contains(user_id)`,
return `(owner, cmac)`. -/
def get_input_file (db : Db) (meta : List (String × String))
    (data_id : ExternalID) : Db × Except ServiceError (List UserID × String) :=
  match get_request_user_id meta with
  | .error e => (db, .error e)
  | .ok user_id =>
    match readInputFile db data_id with
    | .error _ => (db, .error .PermissionDenied)
    | .ok input_file =>
      if ¬(input_file.owner.contains user_id) then (db, .error .PermissionDenied)
      else (db, .ok (input_file.owner, input_file.cmac))

/-- The `CreateTaskRequest` message. -/
structure CreateTaskRequest where
  function_id : ExternalID
  executor : String
  function_arguments : List (String × String)
  inputs_ownership : List (String × List UserID)
  outputs_ownership : List (String × List UserID)
deriving DecidableEq, Repr

/-- The `create_task`: read the function (read failure is
`PermissionDenied`), build the task via `Task::new` (any constructor
failure is mapped to `BadTask`), store it and return its external id.
The handler itself performs no ownership check (source comment:
"access control: none"). -/
def create_task (db : Db) (meta : List (String × String))
    (request : CreateTaskRequest) (fresh : Nat) :
    Db × Except ServiceError ExternalID :=
  match get_request_user_id meta with
  | .error e => (db, .error e)
  | .ok user_id =>
    match readFunction db request.function_id with
    | .error _ => (db, .error .PermissionDenied)
    | .ok f =>
      match Task.new fresh user_id request.executor request.function_arguments
          request.inputs_ownership request.outputs_ownership f with
      | .error _ => (db, .error .BadTask)
      | .ok task => (putTask db task, .ok ⟨"task", task.uuid⟩)

/-- The `GetTaskResponse` message: every stored field of the task,
with the assignments projected to their external ids. -/
structure GetTaskResponse where
  task_id : ExternalID
  creator : UserID
  function_id : ExternalID
  function_owner : UserID
  function_arguments : List (String × String)
  inputs_ownership : List (String × List UserID)
  outputs_ownership : List (String × List UserID)
  participants : List UserID
  approved_users : List UserID
  assigned_inputs : List (String × ExternalID)
  assigned_outputs : List (String × ExternalID)
  result : TaskResult
  status : TaskStatus
deriving DecidableEq, Repr

/-- The `get_task`: read the task (read failure is `PermissionDenied`),
require `task.participants.contains(user_id)`, return the stored
task fields. -/
def get_task (db : Db) (meta : List (String × String))
    (task_id : ExternalID) : Db × Except ServiceError GetTaskResponse :=
  match get_request_user_id meta with
  | .error e => (db, .error e)
  | .ok user_id =>
    match readTask db task_id with
    | .error _ => (db, .error .PermissionDenied)
    | .ok task =>
      if ¬(task.participants.contains user_id) then (db, .error .PermissionDenied)
      else
        (db, .ok
          { task_id := ⟨"task", task.uuid⟩
            creator := task.creator
            function_id := task.function_id
            function_owner := task.function_owner
            function_arguments := task.function_arguments
            inputs_ownership := task.inputs_ownership
            outputs_ownership := task.outputs_ownership
            participants := task.participants
            approved_users := task.approved_users
            assigned_inputs :=
              task.assigned_inputs.map (fun p => (p.1, ⟨"input-file", p.2.uuid⟩))
            assigned_outputs :=
              task.assigned_outputs.map (fun p => (p.1, ⟨"output-file", p.2.uuid⟩))
            result := task.result
            status := task.status })

/-- The `AssignDataRequest` message. -/
structure AssignDataRequest where
  task_id : ExternalID
  inputs : List (String × ExternalID)
  outputs : List (String × ExternalID)
deriving DecidableEq, Repr

/-- The input loop of `assign_data`: for each `(data_name, data_id)`
read the InputFile and apply `Task::assign_input`; every failure is
`PermissionDenied`. -/
def assignInputsLoop (db : Db) (user_id : UserID) (task : Task) :
    List (String × ExternalID) → Except ServiceError Task
  | [] => .ok task
  | (data_name, data_id) :: rest =>
    match readInputFile db data_id with
    | .error _ => .error .PermissionDenied
    | .ok file =>
      match task.assign_input user_id data_name file with
      | .error _ => .error .PermissionDenied
      | .ok task' => assignInputsLoop db user_id task' rest

/-- The output loop of `assign_data`. -/
def assignOutputsLoop (db : Db) (user_id : UserID) (task : Task) :
    List (String × ExternalID) → Except ServiceError Task
  | [] => .ok task
  | (data_name, data_id) :: rest =>
    match readOutputFile db data_id with
    | .error _ => .error .PermissionDenied
    | .ok file =>
      match task.assign_output user_id data_name file with
      | .error _ => .error .PermissionDenied
      | .ok task' => assignOutputsLoop db user_id task' rest

/-- The `assign_data`: read the task, require the caller to be a
participant, run both assignment loops on the in-memory task, and only
then persist the mutated task with a single `Put`. -/
def assign_data (db : Db) (meta : List (String × String))
    (request : AssignDataRequest) : Db × Except ServiceError Unit :=
  match get_request_user_id meta with
  | .error e => (db, .error e)
  | .ok user_id =>
    match readTask db request.task_id with
    | .error _ => (db, .error .PermissionDenied)
    | .ok task =>
      if ¬(task.participants.contains user_id) then (db, .error .PermissionDenied)
      else
        match assignInputsLoop db user_id task request.inputs with
        | .error e => (db, .error e)
        | .ok task₁ =>
          match assignOutputsLoop db user_id task₁ request.outputs with
          | .error e => (db, .error e)
          | .ok task₂ => (putTask db task₂, .ok ())

/-- The `approve_task`: read the task, apply `Task::approve` (failure is
`PermissionDenied`), persist the result. -/
def approve_task (db : Db) (meta : List (String × String))
    (task_id : ExternalID) : Db × Except ServiceError Unit :=
  match get_request_user_id meta with
  | .error e => (db, .error e)
  | .ok user_id =>
    match readTask db task_id with
    | .error _ => (db, .error .PermissionDenied)
    | .ok task =>
      match task.approve user_id with
      | .error _ => (db, .error .PermissionDenied)
      | .ok task' => (putTask db task', .ok ())

/-- The `invoke_task`: read the task, require `task.creator == user_id`
and `task.status == Approved` (both `PermissionDenied`), read the
function of the task, stage it, then issue two mutating storage calls in
order: `Enqueue` of the StagedTask, then `Put` of the `Staged` task.
`storageOk i` tells whether the i-th mutating storage RPC of the handler
succeeds; a failed RPC surfaces as `StorageError` and leaves the
operations already issued in place. -/
def invoke_task (db : Db) (meta : List (String × String))
    (task_id : ExternalID) (storageOk : Nat → Bool) :
    Db × Except ServiceError Unit :=
  match get_request_user_id meta with
  | .error e => (db, .error e)
  | .ok user_id =>
    match readTask db task_id with
    | .error _ => (db, .error .PermissionDenied)
    | .ok task =>
      if ¬(task.creator == user_id) then (db, .error .PermissionDenied)
      else if ¬(task.status == TaskStatus.Approved) then (db, .error .PermissionDenied)
      else
        match readFunction db task.function_id with
        | .error _ => (db, .error .PermissionDenied)
        | .ok f =>
          match task.stage_for_running user_id f with
          | .error _ => (db, .error .PermissionDenied)
          | .ok (staged_task, task') =>
            if ¬ storageOk 0 then (db, .error .StorageError)
            else
              let db₁ := enqueueStaged db staged_task
              if ¬ storageOk 1 then (db₁, .error .StorageError)
              else (putTask db₁ task', .ok ())

/-! ### TaskStatus wire codec (`teaclave_common.rs`) -/

/-- The prost-generated `proto::TaskStatus` enum.  Modelled from the
spec: the generated enum is not among the sources; discriminants are
the proto defaults 0‥5 in declaration order, and `from_i32` is by
construction the partial inverse of the `as i32` cast. -/
inductive ProtoTaskStatus where
  | Created
  | DataAssigned
  | Approved
  | Staged
  | Running
  | Finished
deriving DecidableEq, Repr

/-- The `proto::TaskStatus::from_i32`. -/
def ProtoTaskStatus.fromI32 (n : Int) : Option ProtoTaskStatus :=
  if n = 0 then some .Created
  else if n = 1 then some .DataAssigned
  else if n = 2 then some .Approved
  else if n = 3 then some .Staged
  else if n = 4 then some .Running
  else if n = 5 then some .Finished
  else none

/-- The `as i32` cast on `proto::TaskStatus`. -/
def ProtoTaskStatus.toI32 : ProtoTaskStatus → Int
  | .Created => 0
  | .DataAssigned => 1
  | .Approved => 2
  | .Staged => 3
  | .Running => 4
  | .Finished => 5

/-- The `i32_to_task_status` from `teaclave_common.rs`. -/
def i32_to_task_status (status : Int) : Except Unit TaskStatus :=
  match ProtoTaskStatus.fromI32 status with
  | some .Created => .ok .Created
  | some .DataAssigned => .ok .DataAssigned
  | some .Approved => .ok .Approved
  | some .Staged => .ok .Staged
  | some .Running => .ok .Running
  | some .Finished => .ok .Finished
  | none => .error ()

/-- The `i32_from_task_status` from `teaclave_common.rs`. -/
def i32_from_task_status : TaskStatus → Int
  | .Created => ProtoTaskStatus.Created.toI32
  | .DataAssigned => ProtoTaskStatus.DataAssigned.toI32
  | .Approved => ProtoTaskStatus.Approved.toI32
  | .Staged => ProtoTaskStatus.Staged.toI32
  | .Running => ProtoTaskStatus.Running.toI32
  | .Finished => ProtoTaskStatus.Finished.toI32

/-! ### Concrete fixtures used by witnesses and counterexamples -/

/-- A concrete public function used by concrete scenarios. -/
def fnPub : Function :=
  { uuid := 10, name := "mock", description := "mock function"
    payload := "payload-bytes", executor_type := "python", public := true
    owner := "teaclave", arguments := ["arg1"], inputs := [], outputs := [] }

/-- A concrete approved single-participant task bound to `fnPub`. -/
def taskApproved : Task :=
  { uuid := 3, creator := "alice", function_id := ⟨"function", 10⟩
    function_owner := "teaclave", executor := "mesapy"
    function_arguments := [("arg1", "v")]
    inputs_ownership := [], outputs_ownership := []
    participants := ["alice"], approved_users := []
    assigned_inputs := [], assigned_outputs := []
    status := .Approved, result := .NotReady }

/-- A concrete store holding `fnPub` and `taskApproved`. -/
def dbApproved : Db := ⟨[], [], [fnPub], [taskApproved], []⟩

/-- A concrete task with one input slot owned by `{alice, bob}`. -/
def taskTwoOwners : Task :=
  { uuid := 4, creator := "alice", function_id := ⟨"function", 10⟩
    function_owner := "teaclave", executor := "mesapy"
    function_arguments := [("arg1", "v")]
    inputs_ownership := [("in", ["alice", "bob"])], outputs_ownership := []
    participants := ["alice", "bob"], approved_users := []
    assigned_inputs := [], assigned_outputs := []
    status := .Created, result := .NotReady }

/-- A concrete input file owned by `alice` alone. -/
def inFileAlice : TeaclaveInputFile :=
  { uuid := 7, url := "s3://bucket/path", cmac := "tag"
    crypto_info := FileCrypto.default, owner := ["alice"] }

/-- A concrete store holding `taskTwoOwners` and `inFileAlice`. -/
def dbTwoOwners : Db := ⟨[inFileAlice], [], [fnPub], [taskTwoOwners], []⟩

/-- A concrete two-participant task awaiting approval. -/
def taskReady : Task :=
  { uuid := 5, creator := "alice", function_id := ⟨"function", 10⟩
    function_owner := "teaclave", executor := "mesapy"
    function_arguments := [("arg1", "v")]
    inputs_ownership := [], outputs_ownership := []
    participants := ["alice", "bob"], approved_users := []
    assigned_inputs := [], assigned_outputs := []
    status := .DataAssigned, result := .NotReady }

/-- A concrete store holding `taskReady`. -/
def dbReady : Db := ⟨[], [], [fnPub], [taskReady], []⟩

/-- A concrete private function owned by `alice`. -/
def fnPriv : Function :=
  { uuid := 11, name := "priv", description := "private function"
    payload := "p", executor_type := "python", public := false
    owner := "alice", arguments := ["arg1"], inputs := [], outputs := [] }

/-- A concrete store holding only `fnPriv`. -/
def dbPriv : Db := ⟨[], [], [fnPriv], [], []⟩

/-! ## Theorems -/

/-- C10: the TaskStatus wire codec round-trips — decoding the encoding
of any `TaskStatus` returns it, and `i32_to_task_status` rejects every
`i32` that is not the image of some `TaskStatus`. -/
theorem task_status_codec_roundtrip :
    (∀ s : TaskStatus, i32_to_task_status (i32_from_task_status s) = .ok s) ∧
    (∀ n : Int, (∀ s : TaskStatus, i32_from_task_status s ≠ n) →
      i32_to_task_status n = .error ()) := by
  constructor
  · intro s; cases s <;> rfl
  · intro n h
    have h0 : n ≠ 0 := fun e => h .Created (by simp [i32_from_task_status, ProtoTaskStatus.toI32, e])
    have h1 : n ≠ 1 := fun e => h .DataAssigned (by simp [i32_from_task_status, ProtoTaskStatus.toI32, e])
    have h2 : n ≠ 2 := fun e => h .Approved (by simp [i32_from_task_status, ProtoTaskStatus.toI32, e])
    have h3 : n ≠ 3 := fun e => h .Staged (by simp [i32_from_task_status, ProtoTaskStatus.toI32, e])
    have h4 : n ≠ 4 := fun e => h .Running (by simp [i32_from_task_status, ProtoTaskStatus.toI32, e])
    have h5 : n ≠ 5 := fun e => h .Finished (by simp [i32_from_task_status, ProtoTaskStatus.toI32, e])
    simp [i32_to_task_status, ProtoTaskStatus.fromI32, h0, h1, h2, h3, h4, h5]

/-- Witness for C10: the round-trip at `Staged`, and rejection of 42. -/
theorem task_status_codec_roundtrip_witness :
    i32_to_task_status (i32_from_task_status .Staged) = .ok .Staged ∧
    i32_to_task_status 42 = .error () :=
  ⟨task_status_codec_roundtrip.1 .Staged,
   task_status_codec_roundtrip.2 42 (by intro s; cases s <;> decide)⟩

/-- C5: `GetInputFile(d)` by `u` succeeds iff `d` resolves under the
input-file kind tag to a stored InputFile whose owner list contains
`u`; every failure (absent key, other kind tag, or non-owner) is
`PermissionDenied`. -/
theorem get_input_file_access (db : Db) (u : UserID) (d : ExternalID) :
    ((∃ r, (get_input_file db [("id", u)] d).2 = .ok r) ↔
      (d.pfx = "input-file" ∧
        ∃ f, db.inputFiles.find? (fun g => g.uuid = d.uuid) = some f ∧
          f.owner.contains u)) ∧
    (∀ e, (get_input_file db [("id", u)] d).2 = .error e → e = .PermissionDenied) := by
  have hu : get_request_user_id [("id", u)] = .ok u := rfl
  unfold get_input_file
  rw [hu]
  unfold readInputFile
  by_cases hp : d.pfx = "input-file"
  · simp only [hp, if_pos rfl]
    cases hf : db.inputFiles.find? (fun g => g.uuid = d.uuid) with
    | none => simp
    | some f =>
      by_cases ho : u ∈ f.owner
      · simp [ho]
      · simp [ho]
  · simp [hp]

/-- Witness for C5: a concrete two-file store where the owner reads
her file, and a non-owner is denied. -/
theorem get_input_file_access_witness :
    (∃ r, (get_input_file
        ⟨[⟨7, "s3://x", "tag", FileCrypto.default, ["alice"]⟩], [], [], [], []⟩
        [("id", "alice")] ⟨"input-file", 7⟩).2 = .ok r) ∧
    (∀ e, (get_input_file
        ⟨[⟨7, "s3://x", "tag", FileCrypto.default, ["alice"]⟩], [], [], [], []⟩
        [("id", "bob")] ⟨"input-file", 7⟩).2 = .error e → e = .PermissionDenied) :=
  ⟨(get_input_file_access
      ⟨[⟨7, "s3://x", "tag", FileCrypto.default, ["alice"]⟩], [], [], [], []⟩
      "alice" ⟨"input-file", 7⟩).1.mpr (by refine ⟨rfl, ?_⟩; exact ⟨_, rfl, rfl⟩),
   (get_input_file_access
      ⟨[⟨7, "s3://x", "tag", FileCrypto.default, ["alice"]⟩], [], [], [], []⟩
      "bob" ⟨"input-file", 7⟩).2⟩

/-- C6: `RegisterFusionOutput(L)` by `u` succeeds iff `|L| ≥ 2` and
`u ∈ L`, failing with `PermissionDenied` otherwise; on success it
stores an OutputFile with `owner = L`, `cmac = None`, default crypto
and the synthetic fusion URL built from the fresh uuid. -/
theorem register_fusion_output_contract (db : Db) (u : UserID) (L : List UserID) (fresh : Nat) :
    (((register_fusion_output db [("id", u)] L fresh).2.isOk = true) ↔
      (1 < L.length ∧ u ∈ L)) ∧
    (¬(1 < L.length ∧ u ∈ L) →
      register_fusion_output db [("id", u)] L fresh = (db, .error .PermissionDenied)) ∧
    ((1 < L.length ∧ u ∈ L) →
      register_fusion_output db [("id", u)] L fresh =
        (putOutputFile db
          { uuid := fresh
            url := "fusion:///TEACLAVE_FUSION_BASE/" ++ toString fresh ++ ".fusion"
            cmac := none
            crypto_info := FileCrypto.default
            owner := L },
         .ok ⟨"output-file", fresh⟩)) := by
  have hu : get_request_user_id [("id", u)] = .ok u := rfl
  unfold register_fusion_output create_fusion_data
  rw [hu]
  by_cases h1 : 1 < L.length
  · by_cases h2 : u ∈ L
    · simp [h1, h2, Except.isOk, Except.toBool]
    · simp [h1, h2, Except.isOk, Except.toBool]
  · simp [h1, Except.isOk, Except.toBool]

/-- Witness for C6: `alice` registers a fusion output for
`["alice","bob"]`; the attempt by `carol` with a singleton list is denied. -/
theorem register_fusion_output_contract_witness :
    register_fusion_output ⟨[], [], [], [], []⟩ [("id", "alice")] ["alice", "bob"] 99 =
      (putOutputFile ⟨[], [], [], [], []⟩
        { uuid := 99
          url := "fusion:///TEACLAVE_FUSION_BASE/" ++ toString 99 ++ ".fusion"
          cmac := none
          crypto_info := FileCrypto.default
          owner := ["alice", "bob"] },
       .ok ⟨"output-file", 99⟩) ∧
    register_fusion_output ⟨[], [], [], [], []⟩ [("id", "carol")] ["carol"] 99 =
      (⟨[], [], [], [], []⟩, .error .PermissionDenied) :=
  ⟨(register_fusion_output_contract ⟨[], [], [], [], []⟩ "alice" ["alice", "bob"] 99).2.2
      ⟨by decide, by simp⟩,
   (register_fusion_output_contract ⟨[], [], [], [], []⟩ "carol" ["carol"] 99).2.1
      (by intro h; exact absurd h.1 (by decide))⟩

/-- C9: `GetTask(t)` by `u` succeeds iff the id resolves under the
task kind tag to a stored task whose participants contain `u`, and
then returns exactly the stored task fields; any other caller,
absent id, or other kind tag yields `PermissionDenied`. -/
theorem get_task_contract (db : Db) (u : UserID) (d : ExternalID) :
    ((∃ r, (get_task db [("id", u)] d).2 = .ok r) ↔
      (d.pfx = "task" ∧
        ∃ t, db.tasks.find? (fun s => s.uuid = d.uuid) = some t ∧
          t.participants.contains u)) ∧
    (∀ t, d.pfx = "task" → db.tasks.find? (fun s => s.uuid = d.uuid) = some t →
      t.participants.contains u →
      (get_task db [("id", u)] d).2 = .ok
        { task_id := ⟨"task", t.uuid⟩
          creator := t.creator
          function_id := t.function_id
          function_owner := t.function_owner
          function_arguments := t.function_arguments
          inputs_ownership := t.inputs_ownership
          outputs_ownership := t.outputs_ownership
          participants := t.participants
          approved_users := t.approved_users
          assigned_inputs :=
            t.assigned_inputs.map (fun p => (p.1, ⟨"input-file", p.2.uuid⟩))
          assigned_outputs :=
            t.assigned_outputs.map (fun p => (p.1, ⟨"output-file", p.2.uuid⟩))
          result := t.result
          status := t.status }) ∧
    (∀ e, (get_task db [("id", u)] d).2 = .error e → e = .PermissionDenied) := by
  have hu : get_request_user_id [("id", u)] = .ok u := rfl
  unfold get_task
  rw [hu]
  unfold readTask
  by_cases hp : d.pfx = "task"
  · simp only [hp, if_pos rfl]
    cases hf : db.tasks.find? (fun s => s.uuid = d.uuid) with
    | none => simp
    | some t =>
      by_cases hm : u ∈ t.participants
      · simp [hm]
      · simp [hm]
  · simp [hp]

/-- Witness for C9: the participant `bob` reads the task; the
outsider `eve` is denied. -/
theorem get_task_contract_witness :
    (∃ r, (get_task
        ⟨[], [], [],
          [{ uuid := 3, creator := "alice", function_id := ⟨"function", 10⟩
             function_owner := "alice", executor := "mesapy", function_arguments := []
             inputs_ownership := [], outputs_ownership := []
             participants := ["alice", "bob"], approved_users := []
             assigned_inputs := [], assigned_outputs := []
             status := .Created, result := .NotReady }], []⟩
        [("id", "bob")] ⟨"task", 3⟩).2 = .ok r) ∧
    (∀ e, (get_task
        ⟨[], [], [],
          [{ uuid := 3, creator := "alice", function_id := ⟨"function", 10⟩
             function_owner := "alice", executor := "mesapy", function_arguments := []
             inputs_ownership := [], outputs_ownership := []
             participants := ["alice", "bob"], approved_users := []
             assigned_inputs := [], assigned_outputs := []
             status := .Created, result := .NotReady }], []⟩
        [("id", "eve")] ⟨"task", 3⟩).2 = .error e → e = .PermissionDenied) :=
  ⟨(get_task_contract
      ⟨[], [], [],
        [{ uuid := 3, creator := "alice", function_id := ⟨"function", 10⟩
           function_owner := "alice", executor := "mesapy", function_arguments := []
           inputs_ownership := [], outputs_ownership := []
           participants := ["alice", "bob"], approved_users := []
           assigned_inputs := [], assigned_outputs := []
           status := .Created, result := .NotReady }], []⟩
      "bob" ⟨"task", 3⟩).1.mpr ⟨rfl, ⟨_, rfl, rfl⟩⟩,
   (get_task_contract
      ⟨[], [], [],
        [{ uuid := 3, creator := "alice", function_id := ⟨"function", 10⟩
           function_owner := "alice", executor := "mesapy", function_arguments := []
           inputs_ownership := [], outputs_ownership := []
           participants := ["alice", "bob"], approved_users := []
           assigned_inputs := [], assigned_outputs := []
           status := .Created, result := .NotReady }], []⟩
      "eve" ⟨"task", 3⟩).2.2⟩


/-- C3: AssignData is atomic — whenever the handler fails, for any
reason whatsoever, the database (in particular the stored task) is
exactly as it was: the single `Put` comes after every entry of the
request has been validated and applied in memory. -/
theorem assign_data_atomic (db : Db) (meta : List (String × String))
    (request : AssignDataRequest) (e : ServiceError)
    (h : (assign_data db meta request).2 = .error e) :
    (assign_data db meta request).1 = db := by
  unfold assign_data at h ⊢
  cases hu : get_request_user_id meta with
  | error e' => simp only [hu]
  | ok user_id =>
    simp only [hu] at h ⊢
    cases hr : readTask db request.task_id with
    | error a => simp only [hr]
    | ok task =>
      simp only [hr] at h ⊢
      by_cases hp : task.participants.contains user_id = true
      · rw [if_neg (not_not_intro hp)] at h ⊢
        cases hi : assignInputsLoop db user_id task request.inputs with
        | error e1 => simp only [hi]
        | ok task₁ =>
          simp only [hi] at h ⊢
          cases ho : assignOutputsLoop db user_id task₁ request.outputs with
          | error e2 => simp only [ho]
          | ok task₂ =>
            simp only [ho] at h
            exact absurd h (by simp)
      · rw [if_pos hp] at h ⊢

/-- Witness for C3: `bob` tries to assign the file owned solely by `alice`
to a slot declared for `{alice, bob}`; the owner sets differ, the call
fails, and the store is unchanged. -/
theorem assign_data_atomic_witness :
    (assign_data dbTwoOwners [("id", "bob")]
        ⟨⟨"task", 4⟩, [("in", ⟨"input-file", 7⟩)], []⟩).2 =
      .error .PermissionDenied ∧
    (assign_data dbTwoOwners [("id", "bob")]
        ⟨⟨"task", 4⟩, [("in", ⟨"input-file", 7⟩)], []⟩).1 = dbTwoOwners :=
  ⟨rfl,
   assign_data_atomic dbTwoOwners [("id", "bob")]
     ⟨⟨"task", 4⟩, [("in", ⟨"input-file", 7⟩)], []⟩ .PermissionDenied rfl⟩

/-- C1: for a stored task whose function resolves, `InvokeTask` by `u`
succeeds iff `u` is the creator and the status is `Approved`; any
other caller or status yields `PermissionDenied` with no state change;
on success the stored task becomes `Staged` and a StagedTask carrying
the same `task_id` is appended at the tail of the staged queue. -/
theorem invoke_task_contract (db : Db) (u : UserID) (t : Task)
    (ht : db.tasks.find? (fun s => s.uuid = t.uuid) = some t)
    (hf : ∃ f, readFunction db t.function_id = .ok f) :
    (((invoke_task db [("id", u)] ⟨"task", t.uuid⟩ (fun _ => true)).2.isOk = true) ↔
      (u = t.creator ∧ t.status = .Approved)) ∧
    (¬(u = t.creator ∧ t.status = .Approved) →
      invoke_task db [("id", u)] ⟨"task", t.uuid⟩ (fun _ => true) =
        (db, .error .PermissionDenied)) ∧
    ((u = t.creator ∧ t.status = .Approved) →
      ∃ staged,
        (invoke_task db [("id", u)] ⟨"task", t.uuid⟩ (fun _ => true)).2 = .ok () ∧
        (invoke_task db [("id", u)] ⟨"task", t.uuid⟩ (fun _ => true)).1.stagedQueue =
          db.stagedQueue ++ [staged] ∧
        staged.task_id = t.uuid ∧
        (invoke_task db [("id", u)] ⟨"task", t.uuid⟩ (fun _ => true)).1.tasks.find?
            (fun s => s.uuid = t.uuid) = some { t with status := .Staged }) := by
  obtain ⟨f, hfn⟩ := hf
  have hu : get_request_user_id [("id", u)] = .ok u := rfl
  have hr : readTask db ⟨"task", t.uuid⟩ = .ok t := by
    unfold readTask; simp [ht]
  unfold invoke_task
  simp only [hu, hr]
  by_cases hc : t.creator = u
  · by_cases hs : t.status = TaskStatus.Approved
    · have hst : t.stage_for_running u f =
          .ok (mkStagedTask t f, { t with status := .Staged }) := by
        unfold Task.stage_for_running
        rw [if_neg (by simp [hc]), if_neg (by simp [hs])]
      rw [if_neg (by simp [hc]), if_neg (by simp [hs])]
      simp only [hfn, hst]
      simp only [not_true_eq_false, if_false, ite_false, Bool.not_eq_true]
      refine ⟨?_, fun hn => absurd ⟨hc.symm, hs⟩ hn, fun _ => ?_⟩
      · simp [hc, hs, Except.isOk, Except.toBool]
      · refine ⟨mkStagedTask t f, ?_, ?_, rfl, ?_⟩
        · simp [Except.isOk, Except.toBool]
        · simp [putTask, enqueueStaged]
        · simp [putTask, enqueueStaged, List.find?]
    · rw [if_neg (by simp [hc]), if_pos (by simp [hs])]
      exact ⟨by simp [hs, Except.isOk, Except.toBool], fun _ => rfl,
        fun hp => absurd hp.2 hs⟩
  · have hc' : ¬(u = t.creator) := fun e => hc e.symm
    rw [if_pos (by simp [hc])]
    exact ⟨by simp [hc', Except.isOk, Except.toBool],
      fun _ => rfl, fun hp => absurd hp.1 hc'⟩

/-- Witness for C1: `alice` invokes her approved task; the stored task
becomes `Staged` and the StagedTask lands at the queue tail. -/
theorem invoke_task_contract_witness :
    ∃ staged,
      (invoke_task dbApproved [("id", "alice")] ⟨"task", 3⟩ (fun _ => true)).2 = .ok () ∧
      (invoke_task dbApproved [("id", "alice")] ⟨"task", 3⟩ (fun _ => true)).1.stagedQueue =
        dbApproved.stagedQueue ++ [staged] ∧
      staged.task_id = 3 ∧
      (invoke_task dbApproved [("id", "alice")] ⟨"task", 3⟩ (fun _ => true)).1.tasks.find?
          (fun s => s.uuid = 3) = some { taskApproved with status := .Staged } :=
  (invoke_task_contract dbApproved "alice" taskApproved rfl ⟨fnPub, rfl⟩).2.2
    ⟨rfl, rfl⟩

/-- C4 (amended): a failing `InvokeTask` whose storage RPCs all
succeed — i.e. any authorization or lookup failure — leaves the
database unchanged, and even under storage-RPC failures the stored
task table is never mutated by a failing `InvokeTask`; only the staged
queue can retain the already-enqueued StagedTask when the final `Put`
fails (see the counterexample). -/
theorem invoke_task_failure_semantics :
    (∀ (db : Db) (meta : List (String × String)) (task_id : ExternalID)
        (ok : Nat → Bool), (∀ i, ok i = true) →
      (invoke_task db meta task_id ok).2.isOk = false →
      (invoke_task db meta task_id ok).1 = db) ∧
    (∀ (db : Db) (meta : List (String × String)) (task_id : ExternalID)
        (ok : Nat → Bool),
      (invoke_task db meta task_id ok).2.isOk = false →
      (invoke_task db meta task_id ok).1.tasks = db.tasks) := by
  have key : ∀ (db : Db) (meta : List (String × String)) (task_id : ExternalID)
      (ok : Nat → Bool),
      ((invoke_task db meta task_id ok).2.isOk = true) ∨
      ((invoke_task db meta task_id ok).1 = db) ∨
      (ok 1 = false ∧ (invoke_task db meta task_id ok).1.tasks = db.tasks) := by
    intro db meta task_id ok
    unfold invoke_task
    cases hu : get_request_user_id meta with
    | error e => simp only [hu]; right; left; trivial
    | ok user_id =>
      simp only [hu]
      cases hr : readTask db task_id with
      | error a => simp only [hr]; right; left; trivial
      | ok task =>
        simp only [hr]
        by_cases hc : (task.creator == user_id) = true
        · rw [if_neg (not_not_intro hc)]
          by_cases hs : (task.status == TaskStatus.Approved) = true
          · rw [if_neg (not_not_intro hs)]
            cases hfn : readFunction db task.function_id with
            | error a => simp only [hfn]; right; left; trivial
            | ok f =>
              simp only [hfn]
              cases hst : task.stage_for_running user_id f with
              | error a => simp only [hst]; right; left; trivial
              | ok p =>
                simp only [hst]
                obtain ⟨staged, task'⟩ := p
                by_cases h0 : ok 0 = true
                · by_cases h1 : ok 1 = true
                  · left; simp [h0, h1, Except.isOk, Except.toBool]
                  · have h1' : ok 1 = false := by simpa using h1
                    right; right
                    refine ⟨h1', ?_⟩
                    simp [h0, h1', enqueueStaged]
                · have h0' : ok 0 = false := by simpa using h0
                  right; left
                  simp [h0']
          · rw [if_pos hs]; right; left; rfl
        · rw [if_pos hc]; right; left; rfl
  constructor
  · intro db meta task_id ok hok h
    rcases key db meta task_id ok with hk | hk | hk
    · rw [hk] at h; cases h
    · exact hk
    · exact absurd (hok 1) (by simp [hk.1])
  · intro db meta task_id ok h
    rcases key db meta task_id ok with hk | hk | hk
    · rw [hk] at h; cases h
    · rw [hk]
    · exact hk.2

/-- Witness for the amended C4 theorem: an invocation by a non-creator fails
and leaves the concrete store untouched. -/
theorem invoke_task_failure_semantics_witness :
    (invoke_task dbApproved [("id", "bob")] ⟨"task", 3⟩ (fun _ => true)).1 = dbApproved :=
  invoke_task_failure_semantics.1 dbApproved [("id", "bob")] ⟨"task", 3⟩
    (fun _ => true) (fun _ => rfl) rfl

/-- Counterexample for C4 as stated: `invoke_task` issues two
persisting operations (Enqueue, then Put).  When the Put RPC fails
after a successful Enqueue, the handler fails with `StorageError`, yet
the staged-task queue has grown: a failing InvokeTask does not always
leave the staged queue as it was. -/
theorem invoke_task_enqueue_not_rolled_back :
    (invoke_task dbApproved [("id", "alice")] ⟨"task", 3⟩ (fun i => decide (i = 0))).2 =
      .error .StorageError ∧
    (invoke_task dbApproved [("id", "alice")] ⟨"task", 3⟩ (fun i => decide (i = 0))).1.stagedQueue ≠
      dbApproved.stagedQueue := by
  exact ⟨rfl, by decide⟩

/-! ### Helper lemmas for ApproveTask idempotence -/

/-- Inserting an already-present user is a no-op. -/
lemma addUser_of_contains {l : List UserID} {u : UserID}
    (h : l.contains u = true) : addUser l u = l := by
  unfold addUser; rw [if_pos h]

/-- After insertion the user is present. -/
lemma contains_addUser (l : List UserID) (u : UserID) :
    (addUser l u).contains u = true := by
  unfold addUser
  by_cases h : l.contains u = true
  · rw [if_pos h]; exact h
  · rw [if_neg h]; simp

/-- The `Put` is an idempotent overwrite: writing the same task twice
equals writing it once. -/
lemma putTask_idem (db : Db) (t : Task) :
    putTask (putTask db t) t = putTask db t := by
  unfold putTask
  simp [List.filter_filter]

/-- A freshly written task is read back under its id. -/
lemma readTask_putTask (db : Db) (t : Task) (id : ExternalID)
    (hp : id.pfx = "task") (huu : t.uuid = id.uuid) :
    readTask (putTask db t) id = .ok t := by
  unfold readTask putTask
  simp [hp, List.find?, huu]

/-- A successful task read implies the task kind tag and the uuid
binding. -/
lemma readTask_ok {db : Db} {id : ExternalID} {t : Task}
    (h : readTask db id = .ok t) : id.pfx = "task" ∧ t.uuid = id.uuid := by
  unfold readTask at h
  by_cases hp : id.pfx = "task"
  · rw [if_pos hp] at h
    cases hf : db.tasks.find? (fun s => s.uuid = id.uuid) with
    | none => simp only [hf] at h; cases h
    | some s =>
      simp only [hf] at h
      cases h
      have := List.find?_some hf
      exact ⟨hp, by simpa using this⟩
  · rw [if_neg hp] at h; cases h

/-- The `updateStatus` only rewrites the status field; every other field
(and hence `fullyApproved`) is preserved. -/
lemma updateStatus_toData (t : Task) :
    (Task.updateStatus t).uuid = t.uuid ∧
    (Task.updateStatus t).creator = t.creator ∧
    (Task.updateStatus t).participants = t.participants ∧
    (Task.updateStatus t).approved_users = t.approved_users ∧
    (Task.updateStatus t).fullyApproved = t.fullyApproved := by
  unfold Task.updateStatus
  split <;> (try split) <;> (try split) <;> exact ⟨rfl, rfl, rfl, rfl, rfl⟩

/-- If recomputation starts and ends at `DataAssigned`, nothing
changed and the task was not fully approved. -/
lemma updateStatus_dataAssigned {t t' : Task} (h : Task.updateStatus t = t')
    (hs : t.status = .DataAssigned) (hs' : t'.status = .DataAssigned) :
    t' = t ∧ t.fullyApproved = false := by
  unfold Task.updateStatus at h
  simp only [hs] at h
  by_cases hf : t.fullyApproved = true
  · rw [if_pos hf] at h
    rw [← h] at hs'
    cases hs'
  · rw [if_neg hf] at h
    exact ⟨h.symm, by simpa using hf⟩

/-- Characterization of a successful `Task::approve`. -/
lemma approve_ok {t : Task} {u : UserID} {t' : Task}
    (h : t.approve u = .ok t') :
    t.status = .DataAssigned ∧
    t' = Task.updateStatus { t with approved_users := addUser t.approved_users u } := by
  unfold Task.approve at h
  by_cases h1 : (t.status == TaskStatus.DataAssigned) = true
  · rw [if_neg (not_not_intro h1)] at h
    by_cases h2 : (t.participants.contains u) = true
    · rw [if_neg (not_not_intro h2)] at h
      by_cases h3 : (u == t.creator) = true
      · rw [if_pos h3] at h; cases h
      · rw [if_neg h3] at h
        exact ⟨by simpa using h1, (Except.ok.inj h).symm⟩
    · rw [if_pos h2] at h; cases h
  · rw [if_pos h1] at h; cases h

/-- C8: ApproveTask is idempotent per user — once ApproveTask by `u`
succeeds, repeating it by the same `u` leaves the persisted state
exactly as after the first call (either the repeat is rejected because
the status advanced past `DataAssigned` and nothing is written, or it
re-inserts `u` into the `approved_users` set and recomputes the same
status, rewriting the identical task). -/
theorem approve_task_idempotent (db : Db) (meta : List (String × String))
    (task_id : ExternalID)
    (h : (approve_task db meta task_id).2.isOk = true) :
    (approve_task (approve_task db meta task_id).1 meta task_id).1 =
      (approve_task db meta task_id).1 := by
  unfold approve_task at h ⊢
  cases hu : get_request_user_id meta with
  | error e =>
    simp only [hu] at h
    exact absurd h (by simp [Except.isOk, Except.toBool])
  | ok u =>
    simp only [hu] at h ⊢
    cases hr : readTask db task_id with
    | error a =>
      simp only [hr] at h
      exact absurd h (by simp [Except.isOk, Except.toBool])
    | ok t =>
      simp only [hr] at h ⊢
      cases ha : t.approve u with
      | error a =>
        simp only [ha] at h
        exact absurd h (by simp [Except.isOk, Except.toBool])
      | ok t₁ =>
        simp only [ha]
        obtain ⟨hp, huu⟩ := readTask_ok hr
        obtain ⟨hs, ht₁⟩ := approve_ok ha
        have ht₁u : t₁.uuid = t.uuid := by
          rw [ht₁]; exact (updateStatus_toData _).1
        have hrt : readTask (putTask db t₁) task_id = .ok t₁ :=
          readTask_putTask db t₁ task_id hp (ht₁u.trans huu)
        simp only [hrt]
        cases ha₂ : t₁.approve u with
        | error a => simp only [ha₂]
        | ok t₂ =>
          simp only [ha₂]
          obtain ⟨hs₂, ht₂⟩ := approve_ok ha₂
          have htmid : (({ t with approved_users := addUser t.approved_users u } : Task)).status
              = TaskStatus.DataAssigned := hs
          obtain ⟨heq, hfa⟩ := updateStatus_dataAssigned ht₁.symm htmid hs₂
          have happ : t₁.approved_users = addUser t.approved_users u := by rw [heq]
          have hcontains : t₁.approved_users.contains u = true := by
            rw [happ]; exact contains_addUser _ _
          have haddid : addUser t₁.approved_users u = t₁.approved_users :=
            addUser_of_contains hcontains
          have ht₂' : t₂ = Task.updateStatus t₁ := by
            rw [haddid] at ht₂; exact ht₂
          have hfa₁ : t₁.fullyApproved = false := by rw [heq]; exact hfa
          have hupd : Task.updateStatus t₁ = t₁ := by
            unfold Task.updateStatus
            simp only [hs₂]
            rw [if_neg (by simp [hfa₁])]
          have ht₂₁ : t₂ = t₁ := ht₂'.trans hupd
          rw [ht₂₁]
          exact putTask_idem db t₁


/-- Witness for C8: `bob` approves `taskReady`; a second approval by
`bob` leaves the store exactly as after the first. -/
theorem approve_task_idempotent_witness :
    (approve_task (approve_task dbReady [("id", "bob")] ⟨"task", 5⟩).1
        [("id", "bob")] ⟨"task", 5⟩).1 =
      (approve_task dbReady [("id", "bob")] ⟨"task", 5⟩).1 :=
  approve_task_idempotent dbReady [("id", "bob")] ⟨"task", 5⟩ rfl

/-! ### CreateTask: function access and argument matching -/

/-- A successful `Task::new` implies the function was public or owned
by the creator. -/
lemma task_new_ok {uuid : Nat} {creator : UserID} {executor : String}
    {args : List (String × String)} {inOwn outOwn : List (String × List UserID)}
    {f : Function} {task : Task}
    (h : Task.new uuid creator executor args inOwn outOwn f = .ok task) :
    (f.public || f.owner == creator) = true := by
  unfold Task.new at h
  by_cases h1 : (f.public || f.owner == creator) = true
  · exact h1
  · rw [if_pos h1] at h; cases h

/-- The constructor `Task::new` rejects an argument-name set differing
from the declared function arguments. -/
lemma task_new_arg_mismatch {uuid : Nat} {creator : UserID} {executor : String}
    {args : List (String × String)} {inOwn outOwn : List (String × List UserID)}
    {f : Function}
    (h : sameSet (args.map Prod.fst) f.arguments = false) :
    Task.new uuid creator executor args inOwn outOwn f = .error () := by
  unfold Task.new
  by_cases h1 : (f.public || f.owner == creator) = true
  · rw [if_neg (not_not_intro h1), if_pos (by simp [h])]
  · rw [if_pos h1]

/-- C2 (amended): CreateTask succeeds only if the named function is
public or owned by the caller; but a private function of another owner
makes the Task constructor reject, and the handler surfaces that as
`BadTask`, not `PermissionDenied`. -/
theorem create_task_function_access (db : Db) (u : UserID)
    (request : CreateTaskRequest) (fresh : Nat) :
    (∀ r, (create_task db [("id", u)] request fresh).2 = .ok r →
      ∃ f, readFunction db request.function_id = .ok f ∧
        (f.public = true ∨ f.owner = u)) ∧
    (∀ f, readFunction db request.function_id = .ok f →
      f.public = false → f.owner ≠ u →
      create_task db [("id", u)] request fresh = (db, .error .BadTask)) := by
  have hu : get_request_user_id [("id", u)] = .ok u := rfl
  unfold create_task
  simp only [hu]
  constructor
  · intro r hok
    cases hf : readFunction db request.function_id with
    | error a => simp only [hf] at hok; cases hok
    | ok f =>
      simp only [hf] at hok
      cases hn : Task.new fresh u request.executor request.function_arguments
          request.inputs_ownership request.outputs_ownership f with
      | error a => simp only [hn] at hok; cases hok
      | ok task =>
        refine ⟨f, rfl, ?_⟩
        have := task_new_ok hn
        rcases Bool.or_eq_true_iff.mp this with hp | ho
        · exact Or.inl hp
        · exact Or.inr (by simpa using ho)
  · intro f hf hpub hown
    simp only [hf]
    have hn : Task.new fresh u request.executor request.function_arguments
        request.inputs_ownership request.outputs_ownership f = .error () := by
      unfold Task.new
      rw [if_pos (by simp [hpub, hown])]
    simp only [hn]


/-- Witness for the amended C2 theorem: `bob` cannot create a task on
the private function of `alice`; the failure kind is `BadTask`. -/
theorem create_task_function_access_witness :
    create_task dbPriv [("id", "bob")]
        ⟨⟨"function", 11⟩, "mesapy", [("arg1", "v")], [], []⟩ 50 =
      (dbPriv, .error .BadTask) :=
  (create_task_function_access dbPriv "bob"
      ⟨⟨"function", 11⟩, "mesapy", [("arg1", "v")], [], []⟩ 50).2
    fnPriv rfl rfl (by decide)

/-- Counterexample for C2 as stated: at this concrete store and
request the call does fail, but with `BadTask` — not with
`PermissionDenied` as the claim asserts. -/
theorem create_task_private_denied_counterexample :
    (create_task dbPriv [("id", "bob")]
        ⟨⟨"function", 11⟩, "mesapy", [("arg1", "v")], [], []⟩ 50).2 =
      .error .BadTask ∧
    ServiceError.BadTask ≠ ServiceError.PermissionDenied :=
  ⟨rfl, by decide⟩

/-- C7 (amended): a CreateTask request whose argument-name set does
not equal the declared function arguments fails — but with error
kind `BadTask` (Task construction rejects), not `InvalidRequest`. -/
theorem create_task_arg_mismatch_badtask (db : Db) (u : UserID)
    (request : CreateTaskRequest) (fresh : Nat) (f : Function)
    (hf : readFunction db request.function_id = .ok f)
    (hargs : sameSet (request.function_arguments.map Prod.fst) f.arguments = false) :
    create_task db [("id", u)] request fresh = (db, .error .BadTask) := by
  have hu : get_request_user_id [("id", u)] = .ok u := rfl
  unfold create_task
  simp only [hu, hf, task_new_arg_mismatch hargs]

/-- Witness for the amended C7 theorem: `alice` misnames the argument of
the public mock function and receives `BadTask`. -/
theorem create_task_arg_mismatch_badtask_witness :
    create_task dbApproved [("id", "alice")]
        ⟨⟨"function", 10⟩, "mesapy", [("x", "v")], [], []⟩ 51 =
      (dbApproved, .error .BadTask) :=
  create_task_arg_mismatch_badtask dbApproved "alice"
    ⟨⟨"function", 10⟩, "mesapy", [("x", "v")], [], []⟩ 51 fnPub rfl rfl

/-- Counterexample for C7 as stated: the argument-set mismatch at this
concrete input yields `BadTask`, which is not `InvalidRequest`. -/
theorem create_task_arg_mismatch_counterexample :
    (create_task dbApproved [("id", "alice")]
        ⟨⟨"function", 10⟩, "mesapy", [("x", "v")], [], []⟩ 51).2 =
      .error .BadTask ∧
    ServiceError.BadTask ≠ ServiceError.InvalidRequest :=
  ⟨rfl, by decide⟩

end Teaclave
